import Mathlib

/-
  Verification of the Interstate75W MQTT scroller against its
  natural-language specification.

  The definitions below are a shallow embedding of the two Python
  source files:
    - updatedscroller.py                      (64x32 dual-core variant)
    - MQTTScrollerInterstate75w128_128vr.py   (128x128 variant)
  Pure functions become Lean functions; the shared state dictionary and
  the display loop become explicit state passing; the garbage collector
  enable/disable calls become a boolean field threaded through the
  cycle; a raised exception becomes an explicit fault parameter that
  aborts the try body at the corresponding point.
-/

namespace Scroller

/-! ## Configuration constants (updatedscroller.py, lines 25-35) -/

def BRIGHTNESS : Nat := 100

def SCROLL_SPEED_MS : Int := 60

def MIN_DISPLAY_SEC : Nat := 5

/-- Display width of DISPLAY_INTERSTATE75_64X32. -/
def width : Nat := 64

/-- Display height of DISPLAY_INTERSTATE75_64X32. -/
def height : Nat := 32

/-! ## Pens

The program precomputes seven pens.  The concrete pen handles are
opaque values of the rendering collaborator, so we model them as an
enumeration. -/

inductive Pen where
  | black
  | white
  | red
  | green
  | blue
  | yellow
  | orange
deriving DecidableEq, Repr

/-! ## Shared state (updatedscroller.py, lines 59-63)

The dictionary shared between core 0 (network) and core 1 (display). -/

structure SharedState where
  text : String
  color : Pen
  new_msg : Bool
deriving DecidableEq, Repr

def initState : SharedState :=
  { text := "Booting...", color := Pen.orange, new_msg := true }

/-- Model of update_status (updatedscroller.py, lines 69-76): the write
side of the shared cell.  The body runs only when the stored text
differs from the argument. -/
def update_status (s : SharedState) (text : String) (color : Pen) : SharedState :=
  if s.text ≠ text then { text := text, color := color, new_msg := true } else s

/-- Model of the load step of the display loop (updatedscroller.py,
lines 134-140): wait until new_msg, clear the flag, read text and
color.  Returns the consumed message and the updated cell. -/
def consumeMsg (s : SharedState) : (String × Pen) × SharedState :=
  ((s.text, s.color), { s with new_msg := false })

/-! ## Text wrapping (updatedscroller.py, lines 78-91)

wrap_text calls the external measurer graphics.measure_text, so the
embedding is parameterized by a measure function.  The limit argument
stands for the expression width - 4 of the source. -/

/-- Helper for the Python call text.split(): split on runs of
whitespace, discarding empty pieces.  Structural recursion over the
character list so that concrete inputs evaluate in the kernel. -/
def pySplitAux : List Char → List Char → List String
  | [], acc => if acc ≠ [] then [String.mk acc.reverse] else []
  | c :: cs, acc =>
    if c.isWhitespace then
      if acc ≠ [] then String.mk acc.reverse :: pySplitAux cs [] else pySplitAux cs []
    else
      pySplitAux cs (c :: acc)

def pySplit (text : String) : List String :=
  pySplitAux text.data []

/-- The for loop of wrap_text: the first list argument is the remaining
words, the string argument is current_line. -/
def wrapLoop (measure : String → Nat) (limit : Nat) : List String → String → List String
  | [], current => if current ≠ "" then [current] else []
  | w :: ws, current =>
    let test := if current ≠ "" then current ++ " " ++ w else w
    if measure test ≤ limit then
      wrapLoop measure limit ws test
    else
      current :: wrapLoop measure limit ws w

/-- Model of wrap_text (updatedscroller.py, lines 78-91). -/
def wrap_text (measure : String → Nat) (limit : Nat) (text : String) : List String :=
  wrapLoop measure limit (pySplit text) ""

/-! ## Per-step scroll timing (updatedscroller.py, lines 163-165 and 184-186)

Each scroll step computes delay = max(0, SCROLL_SPEED_MS - diff), where
diff is the measured wall-clock cost of the draw call. -/

def stepDelay (diff : Int) : Int :=
  max 0 (SCROLL_SPEED_MS - diff)

/-! ## Color classification (updatedscroller.py sub_cb, lines 219-230) -/

/-- Model of the Python substring test pat in s. -/
def strContains (s pat : String) : Bool :=
  decide (pat.data <:+: s.data)

/-- The keyword chain of sub_cb in updatedscroller.py: color = BLUE,
then Time, News, Air in order. -/
def sub_cb_color (text : String) : Pen :=
  if strContains text "Time" then Pen.yellow
  else if strContains text "News" then Pen.red
  else if strContains text "Air" then Pen.green
  else Pen.blue

/-- The keyword chain of sub_cb in the 128x128 variant (lines 164-174),
applied to the padded MESSAGE: Time, News, Weather, Air in order,
default blue. -/
def vr_background_color (message : String) : Pen :=
  if strContains message "Time" then Pen.yellow
  else if strContains message "News" then Pen.red
  else if strContains message "Weather" then Pen.blue
  else if strContains message "Air" then Pen.green
  else Pen.blue

/-- MESSAGE construction of the 128x128 variant (line 102): five spaces
of padding on each side of the decoded payload. -/
def vr_MESSAGE (data : String) : String :=
  "     " ++ data ++ "     "

/-- Spec-side definition, for the refinement comparison of claim C9.
Modelled from the words of the spec: the first matching keyword among a
fixed priority list wins; no match defaults to the baseline color. -/
def specFirstMatchColor : List (String × Pen) → Pen → String → Pen
  | [], dflt, _ => dflt
  | (kw, c) :: rest, dflt, text =>
    if strContains text kw then c else specFirstMatchColor rest dflt text

/-! ## UTF-8 decoding (the Python expression msg.decode of sub_cb)

Python decodes the payload bytes strictly; an invalid sequence raises
UnicodeDecodeError.  The model validates the byte list against RFC 3629
and returns none exactly when Python would raise. -/

def isCont (b : Nat) : Bool :=
  decide (0x80 ≤ b ∧ b ≤ 0xBF)

def utf8DecodeAux : List Nat → Option (List Char)
  | [] => some []
  | b :: bs =>
    if b ≤ 0x7F then
      (utf8DecodeAux bs).map (fun cs => Char.ofNat b :: cs)
    else if 0xC2 ≤ b ∧ b ≤ 0xDF then
      match bs with
      | b1 :: bs2 =>
        if isCont b1 then
          (utf8DecodeAux bs2).map
            (fun cs => Char.ofNat ((b - 0xC0) * 0x40 + (b1 - 0x80)) :: cs)
        else none
      | [] => none
    else if 0xE0 ≤ b ∧ b ≤ 0xEF then
      match bs with
      | b1 :: b2 :: bs2 =>
        if (if b = 0xE0 then 0xA0 else 0x80) ≤ b1 ∧
            b1 ≤ (if b = 0xED then 0x9F else 0xBF) ∧ isCont b2 then
          (utf8DecodeAux bs2).map
            (fun cs =>
              Char.ofNat ((b - 0xE0) * 0x1000 + (b1 - 0x80) * 0x40 + (b2 - 0x80)) :: cs)
        else none
      | _ => none
    else if 0xF0 ≤ b ∧ b ≤ 0xF4 then
      match bs with
      | b1 :: b2 :: b3 :: bs2 =>
        if (if b = 0xF0 then 0x90 else 0x80) ≤ b1 ∧
            b1 ≤ (if b = 0xF4 then 0x8F else 0xBF) ∧ isCont b2 ∧ isCont b3 then
          (utf8DecodeAux bs2).map
            (fun cs =>
              Char.ofNat
                ((b - 0xF0) * 0x40000 + (b1 - 0x80) * 0x1000 +
                  (b2 - 0x80) * 0x40 + (b3 - 0x80)) :: cs)
        else none
      | _ => none
    else none

def utf8Decode (bytes : List Nat) : Option String :=
  (utf8DecodeAux bytes).map String.mk

/-- Model of sub_cb (updatedscroller.py, lines 219-230).  The handler
decodes the payload, classifies a color, and calls update_status.
There is no try block in the handler, so a decode failure propagates:
the model returns Except.error in that case. -/
def sub_cb (payload : List Nat) (s : SharedState) : Except Unit SharedState :=
  match utf8Decode payload with
  | none => Except.error ()
  | some text => Except.ok (update_status s text (sub_cb_color text))

/-! ## The display animation cycle (updatedscroller.py, lines 131-199)

One iteration of the while True loop of run_display_core_1.  The model
tracks the garbage collector suspension flag and the visible screen
content, and records the sequence of drawn frames as an event trace.
An exception raised anywhere in the try body is modelled by a fault
parameter naming the point where the body is abandoned; the except
clause swallows it, the finally clause re-enables the collector, and
the trailing clear runs in every case. -/

/-- Visible screen content: the rest state is the cleared black screen. -/
inductive ScreenState where
  | rest
  | showing (lines : List String) (y : Int) (bg : Pen)
deriving DecidableEq, Repr

structure SysState where
  gcDisabled : Bool
  screen : ScreenState
deriving DecidableEq, Repr

/-- Trace events of one cycle: each draw_frame call during a scroll
phase, and the pause draw of the hold phase. -/
inductive Event where
  | draw (lines : List String) (y : Int) (bg : Pen)
  | holdPause (lines : List String) (y : Int) (bg : Pen)
deriving DecidableEq, Repr

/-- Fault parameter: where in the try body an exception is raised.
Fault.none is the normal run; scrollIn k and scrollOut k raise after k
draw calls of the respective phase; load raises while loading the
message, before the collector is disabled; hold raises during the
five-second pause, after the centered frame is drawn. -/
inductive Fault where
  | none
  | load
  | scrollIn (k : Nat)
  | hold
  | scrollOut (k : Nat)

/-- Model of draw_frame (updatedscroller.py, lines 93-114): the screen
shows the given lines at the given vertical offset over the given
background. -/
def draw_frame (lines : List String) (y : Int) (bg : Pen) (s : SysState) : SysState :=
  { s with screen := ScreenState.showing lines y bg }

/-- Python int truncation toward zero of a quotient by two, as in the
expression int((height - total_height) / 2). -/
def pyHalf (a : Int) : Int :=
  if 0 ≤ a then a / 2 else -((-a) / 2)

/-- The sequence of y offsets drawn by a scroll loop of the form
while y_pos > target: draw(y_pos); y_pos -= 1, started at y.  Defined
through List.range so that it evaluates in the kernel; the lemma
scrollSeq_eq below restates it as the loop recurrence. -/
def scrollSeq (target y : Int) : List Int :=
  (List.range (y - target).toNat).map (fun i : Nat => y - (i : Int))

/-- Run a sequence of draw_frame calls, returning the final state and
the emitted draw events. -/
def drawRun (lines : List String) (bg : Pen) (ys : List Int) (s : SysState) :
    SysState × List Event :=
  (ys.foldl (fun st y => draw_frame lines y bg st) s,
    ys.map (fun y => Event.draw lines y bg))

/-- Wrapped lines of a message as computed by the display loop:
wrap_text against width - 4. -/
def wrapLines (measure : String → Nat) (text : String) : List String :=
  wrap_text measure (width - 4) text

/-- total_height = len(lines) * 8 (line 142). -/
def totalHeightOf (measure : String → Nat) (text : String) : Int :=
  ((wrapLines measure text).length : Int) * 8

/-- center_y = int((height - total_height) / 2) (line 145). -/
def centerYOf (measure : String → Nat) (text : String) : Int :=
  pyHalf ((height : Int) - totalHeightOf measure text)

/-- final_y = -(total_height + 2) (line 146). -/
def finalYOf (measure : String → Nat) (text : String) : Int :=
  -(totalHeightOf measure text + 2)

/-- One animation cycle of run_display_core_1 for the message (text,
bg), starting from system state s0.  Returns the state after the
finally clause and the trailing clear, together with the event trace of
the try body up to the fault point. -/
def cycle (measure : String → Nat) (f : Fault) (text : String) (bg : Pen)
    (s0 : SysState) : SysState × List Event :=
  let lines := wrapLines measure text
  let center_y := centerYOf measure text
  let final_y := finalYOf measure text
  let body : SysState × List Event :=
    match f with
    | Fault.load =>
      -- raised while loading, before gc.disable()
      (s0, [])
    | Fault.scrollIn k =>
      -- gc.collect(); gc.disable(); then k draws of phase 1, then raise
      let s1 : SysState := { s0 with gcDisabled := true }
      drawRun lines bg ((scrollSeq center_y (height : Int)).take k) s1
    | Fault.hold =>
      -- phase 1 completes, gc.enable(), centered frame drawn, raise in sleep
      let s1 : SysState := { s0 with gcDisabled := true }
      let p1 := drawRun lines bg (scrollSeq center_y (height : Int)) s1
      let s2 : SysState := { p1.1 with gcDisabled := false }
      (draw_frame lines center_y bg s2, p1.2 ++ [Event.holdPause lines center_y bg])
    | Fault.scrollOut k =>
      -- phases 1 and 2 complete, gc.collect(); gc.disable(); k draws, raise
      let s1 : SysState := { s0 with gcDisabled := true }
      let p1 := drawRun lines bg (scrollSeq center_y (height : Int)) s1
      let s2 : SysState := { p1.1 with gcDisabled := false }
      let s3 : SysState := draw_frame lines center_y bg s2
      let s4 : SysState := { s3 with gcDisabled := true }
      let p2 := drawRun lines bg ((scrollSeq final_y center_y).take k) s4
      (p2.1, p1.2 ++ [Event.holdPause lines center_y bg] ++ p2.2)
    | Fault.none =>
      -- the complete try body
      let s1 : SysState := { s0 with gcDisabled := true }
      let p1 := drawRun lines bg (scrollSeq center_y (height : Int)) s1
      let s2 : SysState := { p1.1 with gcDisabled := false }
      let s3 : SysState := draw_frame lines center_y bg s2
      let s4 : SysState := { s3 with gcDisabled := true }
      let p2 := drawRun lines bg (scrollSeq final_y center_y) s4
      (p2.1, p1.2 ++ [Event.holdPause lines center_y bg] ++ p2.2)
  -- finally: gc.enable(); gc.collect() -- then the unconditional clear
  -- to black and flush (lines 196-199)
  ({ body.1 with gcDisabled := false, screen := ScreenState.rest }, body.2)

/-- The loop recurrence of the scroll loops: scrollSeq is exactly the
draw offsets of while y_pos > target: draw(y_pos); y_pos -= 1. -/
theorem scrollSeq_eq (target y : Int) :
    scrollSeq target y = if target < y then y :: scrollSeq target (y - 1) else [] := by
  by_cases h : target < y
  · have hn : (y - target).toNat = (y - 1 - target).toNat + 1 := by omega
    rw [scrollSeq, hn, List.range_succ_eq_map, if_pos h]
    simp only [List.map_cons, List.map_map, Nat.cast_zero, scrollSeq]
    congr 1
    · omega
    · apply List.map_congr_left
      intro i _
      simp only [Function.comp_apply]
      push_cast
      ring
  · rw [scrollSeq, if_neg h]
    have hn : (y - target).toNat = 0 := by omega
    rw [hn]
    rfl

theorem scrollSeq_length (target y : Int) :
    (scrollSeq target y).length = (y - target).toNat := by
  simp [scrollSeq]

theorem scrollSeq_get (target y : Int) (i : Nat) (h : i < (scrollSeq target y).length) :
    (scrollSeq target y).get ⟨i, h⟩ = y - (i : Int) := by
  simp [scrollSeq, List.get_eq_getElem]

/-- The event trace of a faultless cycle: the scroll-in draws, the hold
pause at center_y, then the scroll-out draws. -/
theorem cycle_none_trace (measure : String → Nat) (text : String) (bg : Pen)
    (s0 : SysState) :
    (cycle measure Fault.none text bg s0).2 =
      ((scrollSeq (centerYOf measure text) (height : Int)).map
          (fun y => Event.draw (wrapLines measure text) y bg))
        ++ [Event.holdPause (wrapLines measure text) (centerYOf measure text) bg]
        ++ ((scrollSeq (finalYOf measure text) (centerYOf measure text)).map
          (fun y => Event.draw (wrapLines measure text) y bg)) := by
  simp [cycle, drawRun]

/-- After any cycle, faulted or not, the collector is enabled and the
screen is the rest screen. -/
theorem cycle_final_state (measure : String → Nat) (f : Fault) (text : String)
    (bg : Pen) (s0 : SysState) :
    (cycle measure f text bg s0).1 = { gcDisabled := false, screen := ScreenState.rest } := by
  rfl

/-! ## Concrete instances used by witnesses and counterexamples -/

/-- A concrete stand-in for the external measurer graphics.measure_text
with the bitmap8 font at scale 1: eight pixels per character. -/
def cellMeasure : String → Nat := fun s => 8 * s.length

/-- A message that wraps to five lines of eight pixels under
cellMeasure and the 60 pixel limit: total height 40 exceeds the 32
pixel display height. -/
def tallText : String := "aaaaaaa bbbbbbb ccccccc ddddddd eeeeeee"

/-! ## Helper lemmas for the wrapping invariant -/

/-- Invariant of the wrapping loop: every emitted line is empty, fits
the limit, or is one of the words of the list allW. -/
theorem wrapLoop_mem (measure : String → Nat) (limit : Nat) (allW : List String) :
    ∀ (ws : List String) (current : String),
      (∀ w ∈ ws, w ∈ allW) →
      (current = "" ∨ measure current ≤ limit ∨ current ∈ allW) →
      ∀ l ∈ wrapLoop measure limit ws current,
        l = "" ∨ measure l ≤ limit ∨ l ∈ allW := by
  intro ws
  induction ws with
  | nil =>
    intro current _ hc l hl
    simp only [wrapLoop] at hl
    split at hl
    · rw [List.mem_singleton] at hl
      subst hl
      exact hc
    · simp at hl
  | cons w ws ih =>
    intro current hws hc l hl
    have hsub : ∀ x ∈ ws, x ∈ allW := fun x hx => hws x (List.mem_cons_of_mem w hx)
    have hwin : w ∈ allW := hws w (List.mem_cons_self w ws)
    simp only [wrapLoop] at hl
    split at hl
    · split at hl
      · exact ih _ hsub (Or.inr (Or.inl (by assumption))) l hl
      · rcases List.mem_cons.mp hl with rfl | hl2
        · exact hc
        · exact ih w hsub (Or.inr (Or.inr hwin)) l hl2
    · split at hl
      · exact ih _ hsub (Or.inr (Or.inl (by assumption))) l hl
      · rcases List.mem_cons.mp hl with rfl | hl2
        · exact hc
        · exact ih w hsub (Or.inr (Or.inr hwin)) l hl2

/-- Every string produced by the whitespace splitter is nonempty. -/
theorem pySplitAux_ne_empty : ∀ (bs acc : List Char), ∀ l ∈ pySplitAux bs acc, l ≠ "" := by
  intro bs
  induction bs with
  | nil =>
    intro acc l hl he
    simp only [pySplitAux] at hl
    split at hl
    · rw [List.mem_singleton] at hl
      subst hl
      have hd : acc.reverse = [] := congrArg String.data he
      simp_all
    · simp at hl
  | cons c cs ih =>
    intro acc l hl
    simp only [pySplitAux] at hl
    split at hl
    · split at hl
      · rcases List.mem_cons.mp hl with rfl | hl2
        · intro he
          have hd : acc.reverse = [] := congrArg String.data he
          simp_all
        · exact ih [] l hl2
      · exact ih [] l hl
    · exact ih (c :: acc) l hl

/-! ## Helper lemmas for keyword containment under space padding -/

def spaceChar : Char := Char.ofNat 32

theorem reverseKeeps {l1 l2 : List Char} (h : l1 <:+: l2) :
    l1.reverse <:+: l2.reverse := by
  obtain ⟨s, t, rfl⟩ := h
  exact ⟨t.reverse, s.reverse, by simp⟩

/-- A pattern with no space characters that occurs inside a string
prefixed by spaces already occurs past the spaces. -/
theorem dropSpacesLeft (pat : List Char) (hne : pat ≠ [])
    (hns : ∀ c ∈ pat, c ≠ spaceChar) :
    ∀ (sp l : List Char), (∀ c ∈ sp, c = spaceChar) →
      pat <:+: sp ++ l → pat <:+: l := by
  intro sp
  induction sp with
  | nil =>
    intro l _ h
    simpa using h
  | cons c cs ih =>
    intro l hsp h
    rw [List.cons_append, List.infix_cons_iff] at h
    rcases h with hpre | hd
    · obtain ⟨p, ps, rfl⟩ := List.exists_cons_of_ne_nil hne
      rw [List.cons_prefix_cons] at hpre
      have hc : c = spaceChar := hsp c (List.mem_cons_self c cs)
      exact absurd (hpre.1.trans hc) (hns p (List.mem_cons_self p ps))
    · exact ih l (fun d hd2 => hsp d (List.mem_cons_of_mem c hd2)) hd

/-- Symmetric statement for a string suffixed by spaces. -/
theorem dropSpacesRight (pat : List Char) (hne : pat ≠ [])
    (hns : ∀ c ∈ pat, c ≠ spaceChar) (l sp : List Char)
    (hsp : ∀ c ∈ sp, c = spaceChar) (h : pat <:+: l ++ sp) : pat <:+: l := by
  have h1 := reverseKeeps h
  rw [List.reverse_append] at h1
  have h2 := dropSpacesLeft pat.reverse (by simpa using hne)
    (fun c hc => hns c (List.mem_reverse.mp hc)) sp.reverse l.reverse
    (fun c hc => hsp c (List.mem_reverse.mp hc)) h1
  have h3 := reverseKeeps h2
  simpa using h3

theorem padSpacesIff (pat l sp1 sp2 : List Char) (hne : pat ≠ [])
    (hns : ∀ c ∈ pat, c ≠ spaceChar) (h1 : ∀ c ∈ sp1, c = spaceChar)
    (h2 : ∀ c ∈ sp2, c = spaceChar) :
    (pat <:+: sp1 ++ l ++ sp2) ↔ pat <:+: l := by
  constructor
  · intro h
    rw [List.append_assoc] at h
    exact dropSpacesRight pat hne hns l sp2 h2
      (dropSpacesLeft pat hne hns sp1 (l ++ sp2) h1 h)
  · rintro ⟨u, v, rfl⟩
    exact ⟨sp1 ++ u, v ++ sp2, by simp [List.append_assoc]⟩

/-- The padding added around the decoded payload in the 128x128 variant
does not change whether a space-free keyword occurs. -/
theorem strContains_pad (t k : String) (hne : k.data ≠ [])
    (hns : ∀ c ∈ k.data, c ≠ spaceChar) :
    strContains (vr_MESSAGE t) k = strContains t k := by
  unfold strContains vr_MESSAGE
  rw [show ("     " ++ t ++ "     ").data = "     ".data ++ t.data ++ "     ".data by simp]
  rw [decide_eq_decide]
  exact padSpacesIff k.data t.data "     ".data "     ".data hne hns (by decide) (by decide)

/-! ## Claim theorems -/

/-- C1: for every animation cycle, whatever fault point an exception
hits, the collector-suspended flag at the end of the cycle equals the
flag at the start (the loop invariant is that it starts enabled), the
screen is returned to the rest color, and the loop goes on to display
the next message: the next faultless cycle contains the hold frame of
that message. -/
theorem gc_bracket_exception_safe (measure : String → Nat) (f : Fault) (text : String)
    (bg : Pen) (s0 : SysState) (h : s0.gcDisabled = false) :
    (cycle measure f text bg s0).1.gcDisabled = s0.gcDisabled
  ∧ (cycle measure f text bg s0).1.screen = ScreenState.rest
  ∧ ∀ (text2 : String) (bg2 : Pen),
      Event.holdPause (wrapLines measure text2) (centerYOf measure text2) bg2
        ∈ (cycle measure Fault.none text2 bg2 (cycle measure f text bg s0).1).2 := by
  refine ⟨?_, rfl, ?_⟩
  · rw [h]; rfl
  · intro t2 b2
    rw [cycle_none_trace]
    simp

/-- Witness for C1 at a concrete faulted cycle. -/
theorem gc_bracket_exception_safe_witness :
    (⟨false, ScreenState.rest⟩ : SysState).gcDisabled = false
  ∧ (cycle cellMeasure (Fault.scrollOut 3) "Hello" Pen.blue ⟨false, ScreenState.rest⟩).1.gcDisabled
      = (⟨false, ScreenState.rest⟩ : SysState).gcDisabled
  ∧ (cycle cellMeasure (Fault.scrollOut 3) "Hello" Pen.blue ⟨false, ScreenState.rest⟩).1.screen
      = ScreenState.rest
  ∧ Event.holdPause (wrapLines cellMeasure "Next") (centerYOf cellMeasure "Next") Pen.red
      ∈ (cycle cellMeasure Fault.none "Next" Pen.red
          (cycle cellMeasure (Fault.scrollOut 3) "Hello" Pen.blue ⟨false, ScreenState.rest⟩).1).2 := by
  have h := gc_bracket_exception_safe cellMeasure (Fault.scrollOut 3) "Hello" Pen.blue
    ⟨false, ScreenState.rest⟩ rfl
  exact ⟨rfl, h.1, h.2.1, h.2.2 "Next" Pen.red⟩

/-- C2 counterexample: the shared cell is not a FIFO queue.  First
conjunct: producing the same text again is a no-op, so a repeated
identical message is never displayed a second time (coalescing).
Second conjunct: a second production overwrites an unconsumed first
one, which is therefore lost. -/
theorem status_cell_not_fifo_cx :
    update_status ⟨"A", Pen.blue, false⟩ "A" Pen.red = ⟨"A", Pen.blue, false⟩
  ∧ (consumeMsg (update_status (update_status ⟨"X", Pen.blue, false⟩ "A" Pen.green)
      "B" Pen.red)).1 = ("B", Pen.red) := by
  decide

/-- C2 amended: the handler and the display loop communicate through a
single latest-message cell, not a queue.  A production with a fresh
text overwrites the cell, so an unconsumed earlier message is lost and
the consumer sees the latest production; a production whose text equals
the stored text is a no-op, so duplicates are coalesced. -/
theorem status_cell_latest_wins (s : SharedState) (t1 t2 : String) (c1 c2 c3 : Pen)
    (h1 : t1 ≠ s.text) (h2 : t2 ≠ t1) :
    (consumeMsg (update_status (update_status s t1 c1) t2 c2)).1 = (t2, c2)
  ∧ update_status (consumeMsg (update_status s t1 c1)).2 t1 c3
      = (consumeMsg (update_status s t1 c1)).2 := by
  have e1 : update_status s t1 c1 = ⟨t1, c1, true⟩ := by
    unfold update_status
    rw [if_pos (Ne.symm h1)]
  constructor
  · rw [e1]
    unfold update_status
    rw [if_pos (Ne.symm h2)]
    rfl
  · rw [e1]
    unfold consumeMsg update_status
    simp

/-- Witness for C2 amended at concrete productions. -/
theorem status_cell_latest_wins_witness :
    ("A" : String) ≠ initState.text
  ∧ ("B" : String) ≠ "A"
  ∧ (consumeMsg (update_status (update_status initState "A" Pen.green) "B" Pen.red)).1
      = ("B", Pen.red)
  ∧ update_status (consumeMsg (update_status initState "A" Pen.green)).2 "A" Pen.yellow
      = (consumeMsg (update_status initState "A" Pen.green)).2 := by
  have h := status_cell_latest_wins initState "A" "B" Pen.green Pen.red Pen.yellow
    (by decide) (by decide)
  exact ⟨by decide, by decide, h.1, h.2⟩

/-- C3 counterexample: a message whose wrapped height 40 exceeds the
display height 32 still reaches the hold phase; there is no
continuous-scroll branch in run_display_core_1. -/
theorem tall_message_enters_hold_cx :
    (32 : Int) < totalHeightOf cellMeasure tallText
  ∧ Event.holdPause (wrapLines cellMeasure tallText) (centerYOf cellMeasure tallText) Pen.blue
      ∈ (cycle cellMeasure Fault.none tallText Pen.blue ⟨false, ScreenState.rest⟩).2 := by
  refine ⟨by decide, ?_⟩
  rw [cycle_none_trace]
  simp

/-- C3 amended: a message whose wrapped total height exceeds the
display height follows the same scroll-in, hold, scroll-out sequence as
any other message; the centering target is negative and the pause
happens there. -/
theorem tall_message_still_holds (measure : String → Nat) (text : String) (bg : Pen)
    (s0 : SysState) (h : (height : Int) < totalHeightOf measure text) :
    centerYOf measure text < 0
  ∧ Event.holdPause (wrapLines measure text) (centerYOf measure text) bg
      ∈ (cycle measure Fault.none text bg s0).2 := by
  constructor
  · have hmul : totalHeightOf measure text = ((wrapLines measure text).length : Int) * 8 := rfl
    unfold centerYOf pyHalf
    rw [hmul] at h ⊢
    unfold height at h ⊢
    omega
  · rw [cycle_none_trace]
    simp

/-- Witness for C3 amended at the concrete tall message. -/
theorem tall_message_still_holds_witness :
    (height : Int) < totalHeightOf cellMeasure tallText
  ∧ centerYOf cellMeasure tallText < 0
  ∧ Event.holdPause (wrapLines cellMeasure tallText) (centerYOf cellMeasure tallText) Pen.green
      ∈ (cycle cellMeasure Fault.none tallText Pen.green ⟨false, ScreenState.rest⟩).2 := by
  have h := tall_message_still_holds cellMeasure tallText Pen.green
    ⟨false, ScreenState.rest⟩ (by decide)
  exact ⟨by decide, h.1, h.2⟩

/-- C4 counterexample: the sleep floor is zero, not strictly positive.
When the measured draw cost reaches the step interval the computed
delay is exactly zero. -/
theorem step_delay_floor_zero_cx :
    stepDelay 60 = 0 ∧ ¬ 0 < stepDelay 60 := by
  decide

/-- C4 amended: each scroll step moves the offset by exactly one pixel,
and the sleep before the next step is max(0, SCROLL_SPEED_MS - diff)
with a zero floor: nonnegative, but zero whenever the draw cost reaches
the step interval. -/
theorem scroll_step_one_pixel (diff target y : Int) (i : Nat)
    (h : i + 1 < (scrollSeq target y).length) :
    stepDelay diff = max 0 (SCROLL_SPEED_MS - diff)
  ∧ 0 ≤ stepDelay diff
  ∧ (scrollSeq target y).get ⟨i + 1, h⟩
      = (scrollSeq target y).get ⟨i, Nat.lt_of_succ_lt h⟩ - 1 := by
  refine ⟨rfl, le_max_left 0 _, ?_⟩
  rw [scrollSeq_get, scrollSeq_get]
  push_cast
  ring

/-- Witness for C4 amended on a concrete scroll sequence. -/
theorem scroll_step_one_pixel_witness :
    1 + 1 < (scrollSeq (0 : Int) 5).length
  ∧ stepDelay 100 = max 0 (SCROLL_SPEED_MS - 100)
  ∧ 0 ≤ stepDelay 100
  ∧ (scrollSeq (0 : Int) 5).get ⟨1 + 1, by decide⟩
      = (scrollSeq (0 : Int) 5).get ⟨1, by decide⟩ - 1 := by
  have hlen : 1 + 1 < (scrollSeq (0 : Int) 5).length := by decide
  have h := scroll_step_one_pixel 100 0 5 1 hlen
  exact ⟨hlen, h.1, h.2.1, h.2.2⟩

/-- C5 counterexample: the payload of bytes 255, 254 is not valid UTF-8
and the handler has no try block, so the decode exception escapes
sub_cb. -/
theorem invalid_utf8_raises_cx :
    sub_cb [255, 254] initState = Except.error () := rfl

/-- C5 amended: an inbound payload that is not valid UTF-8 produces no
status entry, but the decode exception escapes the handler instead of
being logged and swallowed. -/
theorem invalid_utf8_no_entry (payload : List Nat) (s : SharedState)
    (h : utf8Decode payload = none) :
    sub_cb payload s = Except.error () := by
  unfold sub_cb
  rw [h]

/-- Witness for C5 amended at the concrete invalid payload. -/
theorem invalid_utf8_no_entry_witness :
    utf8Decode [255, 254] = none
  ∧ sub_cb [255, 254] ⟨"x", Pen.blue, false⟩ = Except.error () :=
  ⟨by decide, invalid_utf8_no_entry [255, 254] ⟨"x", Pen.blue, false⟩ (by decide)⟩

/-- C6: every line produced by wrap_text measures within the limit,
except a line that is a single input word whose own measure exceeds the
limit, emitted unsplit.  The only assumption on the external measurer
is that the empty string measures zero. -/
theorem wrap_lines_fit_or_single_word (measure : String → Nat) (limit : Nat)
    (text : String) (h0 : measure "" = 0) :
    ∀ l ∈ wrap_text measure limit text,
      measure l ≤ limit ∨ (l ∈ pySplit text ∧ limit < measure l) := by
  intro l hl
  have hinv := wrapLoop_mem measure limit (pySplit text) (pySplit text) ""
    (fun w hw => hw) (Or.inl rfl) l hl
  rcases hinv with rfl | h | h
  · left
    rw [h0]
    exact Nat.zero_le _
  · left
    exact h
  · rcases le_or_lt (measure l) limit with h2 | h2
    · left
      exact h2
    · right
      exact ⟨h, h2⟩

/-- Witness for C6 on a concrete wrap. -/
theorem wrap_lines_fit_or_single_word_witness :
    String.length "" = 0
  ∧ ("hello world" : String) ∈ wrap_text String.length 11 "hello world longerword"
  ∧ (String.length "hello world" ≤ 11
      ∨ (("hello world" : String) ∈ pySplit "hello world longerword"
          ∧ 11 < String.length "hello world")) :=
  ⟨rfl, by decide,
    wrap_lines_fit_or_single_word String.length 11 "hello world longerword" rfl
      "hello world" (by decide)⟩

/-- C7 counterexample: a single word wider than the limit is not
emitted as the only line; the loop first commits the empty current
line, so a spurious empty line precedes it. -/
theorem oversized_word_extra_line_cx :
    wrap_text (fun s => s.length) 5 "abcdef" = ["", "abcdef"]
  ∧ wrap_text (fun s => s.length) 5 "abcdef" ≠ ["abcdef"] := by
  decide

/-- C7 amended: empty input wraps to the empty sequence, and an input
that is a single word wider than the limit wraps to exactly two lines:
a spurious empty line followed by the word itself, unsplit. -/
theorem wrap_text_edge_cases :
    (∀ (measure : String → Nat) (limit : Nat), wrap_text measure limit "" = [])
  ∧ (∀ (measure : String → Nat) (limit : Nat) (text w : String),
      pySplit text = [w] → limit < measure w →
        wrap_text measure limit text = ["", w]) := by
  constructor
  · intro measure limit
    rfl
  · intro measure limit text w hs hw
    have hwne : w ≠ "" := by
      apply pySplitAux_ne_empty text.data []
      rw [show pySplitAux text.data [] = pySplit text from rfl, hs]
      exact List.mem_singleton.mpr rfl
    unfold wrap_text
    rw [hs]
    simp only [wrapLoop]
    have hred : (if ("" : String) ≠ "" then "" ++ " " ++ w else w) = w := by simp
    rw [hred, if_neg (Nat.not_le.mpr hw)]
    simp [hwne]

/-- Witness for C7 amended at concrete inputs. -/
theorem wrap_text_edge_cases_witness :
    wrap_text String.length 5 "" = []
  ∧ pySplit "abcdef" = ["abcdef"]
  ∧ 5 < String.length "abcdef"
  ∧ wrap_text String.length 5 "abcdef" = ["", "abcdef"] := by
  have h := wrap_text_edge_cases
  exact ⟨h.1 String.length 5, by decide, by decide,
    h.2 String.length 5 "abcdef" "abcdef" (by decide) (by decide)⟩

/-- C8: for a message whose wrapped height fits the display, the
centering target equals (height - total_height) / 2, the scroll-in
phase starts at the bottom edge, and the hold frame is drawn exactly at
the centered target. -/
theorem short_message_centered (measure : String → Nat) (text : String) (bg : Pen)
    (s0 : SysState) (h : totalHeightOf measure text ≤ (height : Int)) :
    centerYOf measure text = ((height : Int) - totalHeightOf measure text) / 2
  ∧ (scrollSeq (centerYOf measure text) (height : Int)).head? = some (height : Int)
  ∧ Event.holdPause (wrapLines measure text)
      (((height : Int) - totalHeightOf measure text) / 2) bg
      ∈ (cycle measure Fault.none text bg s0).2 := by
  have hge : (0 : Int) ≤ (height : Int) - totalHeightOf measure text := by omega
  have hc : centerYOf measure text = ((height : Int) - totalHeightOf measure text) / 2 := by
    unfold centerYOf pyHalf
    rw [if_pos hge]
  refine ⟨hc, ?_, ?_⟩
  · rw [scrollSeq_eq, if_pos ?_]
    · rfl
    · have htot : (0 : Int) ≤ totalHeightOf measure text := by
        have : totalHeightOf measure text = ((wrapLines measure text).length : Int) * 8 := rfl
        rw [this]
        positivity
      rw [hc]
      unfold height at *
      omega
  · rw [← hc, cycle_none_trace]
    simp

/-- Witness for C8 at a concrete short message. -/
theorem short_message_centered_witness :
    totalHeightOf cellMeasure "Hi" ≤ (height : Int)
  ∧ centerYOf cellMeasure "Hi" = ((height : Int) - totalHeightOf cellMeasure "Hi") / 2
  ∧ (scrollSeq (centerYOf cellMeasure "Hi") (height : Int)).head? = some (height : Int)
  ∧ Event.holdPause (wrapLines cellMeasure "Hi")
      (((height : Int) - totalHeightOf cellMeasure "Hi") / 2) Pen.blue
      ∈ (cycle cellMeasure Fault.none "Hi" Pen.blue ⟨false, ScreenState.rest⟩).2 := by
  have h := short_message_centered cellMeasure "Hi" Pen.blue ⟨false, ScreenState.rest⟩
    (by decide)
  exact ⟨by decide, h.1, h.2.1, h.2.2⟩

/-- C9: both variants choose the background color by a first-match
keyword chain.  The 64x32 handler uses the priority Time, News, Air and
the 128x128 handler uses Time, News, Weather, Air, both defaulting to
blue, and the chosen color is a function of the decoded message text
alone: the space padding the 128x128 variant adds around the payload
cannot create or destroy a keyword match. -/
theorem color_first_match_priority (text : String) :
    sub_cb_color text
      = specFirstMatchColor [("Time", Pen.yellow), ("News", Pen.red), ("Air", Pen.green)]
          Pen.blue text
  ∧ vr_background_color (vr_MESSAGE text)
      = specFirstMatchColor
          [("Time", Pen.yellow), ("News", Pen.red), ("Weather", Pen.blue),
            ("Air", Pen.green)] Pen.blue text := by
  constructor
  · rfl
  · unfold vr_background_color
    simp only [specFirstMatchColor]
    rw [strContains_pad text "Time" (by decide) (by decide),
      strContains_pad text "News" (by decide) (by decide),
      strContains_pad text "Weather" (by decide) (by decide),
      strContains_pad text "Air" (by decide) (by decide)]

/-- C10: a call of update_status whose text equals the stored text
leaves the whole shared state unchanged, including the color and the
new message flag. -/
theorem update_status_same_text_noop (s : SharedState) (text : String) (color : Pen)
    (h : s.text = text) : update_status s text color = s := by
  unfold update_status
  rw [if_neg (by simp [h])]

/-- Witness for C10: a matching text with a different color changes
nothing. -/
theorem update_status_same_text_noop_witness :
    (⟨"A", Pen.blue, false⟩ : SharedState).text = "A"
  ∧ update_status ⟨"A", Pen.blue, false⟩ "A" Pen.red = ⟨"A", Pen.blue, false⟩ :=
  ⟨rfl, update_status_same_text_noop ⟨"A", Pen.blue, false⟩ "A" Pen.red rfl⟩

end Scroller
